import Mathlib

/-!
Verification of the connection-management protocol of the `ass` signal/slot
library (src/ass.hpp).

Shallow embedding: live `Signal` and `Slot` objects are identified by natural
numbers (standing for their addresses); the heap of adjacency vectors is a
`World`.  `sigSlots s` models `Signal::slots` of signal `s` (a vector of slot
pointers, in insertion order); `slotSigs t` models `Slot::signals` of slot `t`;
`cb t` models `Slot::callback` of slot `t`, with callback values drawn from an
abstract type.  `std::remove`/`erase` of a pointer value is `removeAll`
(erases every occurrence); `push_back` is list append.  `emit` performs no
state change in the source (it only invokes callbacks), so it is modelled as
the trace of invocations it performs: a list of (slot id, callback value,
argument) triples in iteration order.
-/

/-- Pointwise update of a map from ids. -/
def updF {β : Type} (f : Nat → β) (i : Nat) (v : β) : Nat → β :=
  fun j => if j = i then v else f j

/-- Model of `v.erase(std::remove(v.begin(), v.end(), x), v.end())`:
removes every occurrence of `x`. -/
def removeAll (l : List Nat) (x : Nat) : List Nat :=
  l.filter (fun y => decide (y ≠ x))

/-- The state of all adjacency vectors and callbacks.  `κ` is the type of
callback values. -/
structure World (κ : Type) where
  /-- `Signal::slots` for each signal id: slot ids in insertion order. -/
  sigSlots : Nat → List Nat
  /-- `Slot::signals` for each slot id: signal ids in insertion order. -/
  slotSigs : Nat → List Nat
  /-- `Slot::callback` for each slot id. -/
  cb : Nat → κ

variable {κ : Type}

/-- `Signal::isConnectedTo` (ass.hpp line 264): `std::find` over `slots`. -/
def Signal_isConnectedTo (w : World κ) (s t : Nat) : Bool :=
  decide (t ∈ w.sigSlots s)

/-- `Slot::isConnectedTo` (ass.hpp line 116): `std::find` over `signals`. -/
def Slot_isConnectedTo (w : World κ) (t s : Nat) : Bool :=
  decide (s ∈ w.slotSigs t)

/-- `Signal::connectionCount` (ass.hpp line 254). -/
def Signal_connectionCount (w : World κ) (s : Nat) : Nat :=
  (w.sigSlots s).length

/-- `Slot::connectionCount` (ass.hpp line 106). -/
def Slot_connectionCount (w : World κ) (t : Nat) : Nat :=
  (w.slotSigs t).length

/-- `Signal::connect` (ass.hpp lines 222-227): unless already connected,
`slots.push_back(&slot)` and `slot.addSignal(*this)`
(`signals.push_back(&signal)`, line 122). -/
def Signal_connect (w : World κ) (s t : Nat) : World κ :=
  if Signal_isConnectedTo w s t then w
  else { w with
    sigSlots := updF w.sigSlots s (w.sigSlots s ++ [t]),
    slotSigs := updF w.slotSigs t (w.slotSigs t ++ [s]) }

/-- `Signal::removeSlot` (ass.hpp lines 270-272). -/
def Signal_removeSlot (w : World κ) (s t : Nat) : World κ :=
  { w with sigSlots := updF w.sigSlots s (removeAll (w.sigSlots s) t) }

/-- `Slot::removeSignal` (ass.hpp lines 126-128). -/
def Slot_removeSignal (w : World κ) (t s : Nat) : World κ :=
  { w with slotSigs := updF w.slotSigs t (removeAll (w.slotSigs t) s) }

/-- `Signal::disconnect` (ass.hpp lines 234-237): `removeSlot` then
`slot.removeSignal(*this)`. -/
def Signal_disconnect (w : World κ) (s t : Nat) : World κ :=
  Slot_removeSignal (Signal_removeSlot w s t) t s

/-- `Slot::disconnectAll` (ass.hpp lines 130-135): for each connected signal,
`signal->removeSlot(*this)`; then `signals.clear()`. -/
def Slot_disconnectAll (w : World κ) (t : Nat) : World κ :=
  let w1 := (w.slotSigs t).foldl (fun acc s => Signal_removeSlot acc s t) w
  { w1 with slotSigs := updF w1.slotSigs t [] }

/-- `Signal::disconnectAll` (ass.hpp lines 242-247): for each connected slot,
`slot->removeSignal(*this)`; then `slots.clear()`. -/
def Signal_disconnectAll (w : World κ) (s : Nat) : World κ :=
  let w1 := (w.sigSlots s).foldl (fun acc t => Slot_removeSignal acc t s) w
  { w1 with sigSlots := updF w1.sigSlots s [] }

/-- `Slot::copyConnectionsFrom` (ass.hpp lines 137-141): for each signal in
`other.signals`, `signal->connect(*this)`. -/
def Slot_copyConnectionsFrom (w : World κ) (dst src : Nat) : World κ :=
  (w.slotSigs src).foldl (fun acc s => Signal_connect acc s dst) w

/-- `Signal::copyConnectionsFrom` (ass.hpp lines 274-278): for each slot in
`other.slots`, `this->connect(*slot)`. -/
def Signal_copyConnectionsFrom (w : World κ) (dst src : Nat) : World κ :=
  (w.sigSlots src).foldl (fun acc t => Signal_connect acc dst t) w

/-- Swap of two callback entries, modelling `std::swap(this->callback,
other.callback)`. -/
def swapCb (f : Nat → κ) (i j : Nat) : Nat → κ :=
  fun k => if k = i then f j else if k = j then f i else f k

/-- `Slot::Slot(callback)` (ass.hpp lines 45-46) on a fresh slot id: stores the
callback; the adjacency vectors of a fresh object are empty already. -/
def Slot_ctor (w : World κ) (t : Nat) (c : κ) : World κ :=
  { w with cb := updF w.cb t c }

/-- `Slot::~Slot` (ass.hpp lines 52-54): `disconnectAll()`. -/
def Slot_dtor (w : World κ) (t : Nat) : World κ :=
  Slot_disconnectAll w t

/-- `Signal::~Signal` (ass.hpp lines 162-164): `disconnectAll()`. -/
def Signal_dtor (w : World κ) (s : Nat) : World κ :=
  Signal_disconnectAll w s

/-- `Slot::Slot(const Slot&)` (ass.hpp lines 60-63): `copyConnectionsFrom(other)`
then `this->callback = other.callback`. -/
def Slot_copyCtor (w : World κ) (dst src : Nat) : World κ :=
  let w1 := Slot_copyConnectionsFrom w dst src
  { w1 with cb := updF w1.cb dst (w1.cb src) }

/-- `Slot::operator=(const Slot&)` (ass.hpp lines 70-75): `disconnectAll()`,
`copyConnectionsFrom(other)`, `callback = other.callback`. -/
def Slot_copyAssign (w : World κ) (dst src : Nat) : World κ :=
  let w1 := Slot_copyConnectionsFrom (Slot_disconnectAll w dst) dst src
  { w1 with cb := updF w1.cb dst (w1.cb src) }

/-- `Slot::Slot(Slot&&)` (ass.hpp lines 81-85): `copyConnectionsFrom(other)`,
`other.disconnectAll()`, `std::swap(this->callback, other.callback)`. -/
def Slot_moveCtor (w : World κ) (dst src : Nat) : World κ :=
  let w1 := Slot_disconnectAll (Slot_copyConnectionsFrom w dst src) src
  { w1 with cb := swapCb w1.cb dst src }

/-- `Slot::operator=(Slot&&)` (ass.hpp lines 93-99): `disconnectAll()`,
`copyConnectionsFrom(other)`, `other.disconnectAll()`, swap callbacks. -/
def Slot_moveAssign (w : World κ) (dst src : Nat) : World κ :=
  let w1 := Slot_disconnectAll (Slot_copyConnectionsFrom (Slot_disconnectAll w dst) dst src) src
  { w1 with cb := swapCb w1.cb dst src }

/-- `Signal::Signal(const Signal&)` (ass.hpp lines 170-172). -/
def Signal_copyCtor (w : World κ) (dst src : Nat) : World κ :=
  Signal_copyConnectionsFrom w dst src

/-- `Signal::operator=(const Signal&)` (ass.hpp lines 179-183). -/
def Signal_copyAssign (w : World κ) (dst src : Nat) : World κ :=
  Signal_copyConnectionsFrom (Signal_disconnectAll w dst) dst src

/-- `Signal::Signal(Signal&&)` (ass.hpp lines 189-192). -/
def Signal_moveCtor (w : World κ) (dst src : Nat) : World κ :=
  Signal_disconnectAll (Signal_copyConnectionsFrom w dst src) src

/-- `Signal::operator=(Signal&&)` (ass.hpp lines 200-205). -/
def Signal_moveAssign (w : World κ) (dst src : Nat) : World κ :=
  Signal_disconnectAll (Signal_copyConnectionsFrom (Signal_disconnectAll w dst) dst src) src

/-- `Signal::emit` (ass.hpp lines 211-215): `for (auto *slot : slots)
slot->callback(std::forward<Args>(args)...)`.  The state is unchanged; the
result is the trace of invocations, in iteration order: for each connected
slot, the triple (slot id, its current callback value, the argument). -/
def Signal_emit {α : Type} (w : World κ) (s : Nat) (a : α) : List (Nat × κ × α) :=
  (w.sigSlots s).map (fun t => (t, w.cb t, a))

/-- `N` consecutive calls of `Signal::emit` with the same argument on an
unchanged connection set: the concatenated trace. -/
def Signal_emitN {α : Type} (w : World κ) (s : Nat) (a : α) : Nat → List (Nat × κ × α)
  | 0 => []
  | n + 1 => Signal_emitN w s a n ++ Signal_emit w s a

/-- The mutual-registration invariant: a signal is recorded in the adjacency
vector of a slot exactly when that slot is recorded in the adjacency vector of
the signal. -/
def Symm (w : World κ) : Prop :=
  ∀ s t, s ∈ w.slotSigs t ↔ t ∈ w.sigSlots s

/-- One operation of the public interface of the library, with the ids it
touches.  Constructors act on a fresh id (fresh objects already have empty
adjacency vectors, so only the callback entry changes). -/
inductive Op (κ : Type) where
  | connect (s t : Nat)
  | disconnect (s t : Nat)
  | slotDisconnectAll (t : Nat)
  | signalDisconnectAll (s : Nat)
  | emit (s : Nat)
  | slotCtor (t : Nat) (c : κ)
  | signalCtor (s : Nat)
  | slotDtor (t : Nat)
  | signalDtor (s : Nat)
  | slotCopyCtor (dst src : Nat)
  | slotMoveCtor (dst src : Nat)
  | slotCopyAssign (dst src : Nat)
  | slotMoveAssign (dst src : Nat)
  | signalCopyCtor (dst src : Nat)
  | signalMoveCtor (dst src : Nat)
  | signalCopyAssign (dst src : Nat)
  | signalMoveAssign (dst src : Nat)

/-- The state transformation of each public operation (`emit` and default
construction of a `Signal` leave the connection state unchanged). -/
def Op.apply : Op κ → World κ → World κ
  | .connect s t, w => Signal_connect w s t
  | .disconnect s t, w => Signal_disconnect w s t
  | .slotDisconnectAll t, w => Slot_disconnectAll w t
  | .signalDisconnectAll s, w => Signal_disconnectAll w s
  | .emit _, w => w
  | .slotCtor t c, w => Slot_ctor w t c
  | .signalCtor _, w => w
  | .slotDtor t, w => Slot_dtor w t
  | .signalDtor s, w => Signal_dtor w s
  | .slotCopyCtor dst src, w => Slot_copyCtor w dst src
  | .slotMoveCtor dst src, w => Slot_moveCtor w dst src
  | .slotCopyAssign dst src, w => Slot_copyAssign w dst src
  | .slotMoveAssign dst src, w => Slot_moveAssign w dst src
  | .signalCopyCtor dst src, w => Signal_copyCtor w dst src
  | .signalMoveCtor dst src, w => Signal_moveCtor w dst src
  | .signalCopyAssign dst src, w => Signal_copyAssign w dst src
  | .signalMoveAssign dst src, w => Signal_moveAssign w dst src

/-! ### The MemberSlot address model (ass.hpp lines 286-340)

`MemberSlot` stores a raw `instance` pointer and a member-function pointer.
On copy and move construction/assignment it rebuilds its callback via
`calculateCallbackPointersFrom` (lines 320-324): the new `instance` is the old
one shifted by the byte offset between the new and the old slot object.
Addresses are modelled as integers; member-function pointers as opaque ids. -/

/-- The pair a member callback is bound to: the address of the target object
and the member function. -/
structure MemberBinding where
  inst : Int
  fn : Nat
deriving DecidableEq

/-- A `MemberSlot` object: its own address, the bound instance address, and
the member-function id. -/
structure MemberSlotObj where
  addr : Int
  inst : Int
  fn : Nat
deriving DecidableEq

/-- `MemberSlot::calculateCallbackPointersFrom` (ass.hpp lines 320-324) as run
by a copy or move at address `thisAddr`:
`offsetInBytes = bytePtr(this) - bytePtr(other)`;
`instance = other->instance + offsetInBytes`; `function = other->function`. -/
def MemberSlot_calcFrom (thisAddr : Int) (other : MemberSlotObj) : MemberSlotObj :=
  { addr := thisAddr
    inst := other.inst + (thisAddr - other.addr)
    fn := other.fn }

/-- `MemberSlot` copy construction (ass.hpp lines 293-295): the callback is
rebuilt by `buildCallback(&other)`, which runs `calculateCallbackPointersFrom`. -/
def MemberSlot_copyCtor (thisAddr : Int) (other : MemberSlotObj) : MemberSlotObj :=
  MemberSlot_calcFrom thisAddr other

/-- `MemberSlot` move construction (ass.hpp lines 303-305): same rebuild via
`calculateCallbackPointersFrom`. -/
def MemberSlot_moveCtor (thisAddr : Int) (other : MemberSlotObj) : MemberSlotObj :=
  MemberSlot_calcFrom thisAddr other

/-- The callback value held by a `MemberSlot`: invoke member `fn` on the
object at address `inst` (ass.hpp line 317). -/
def MemberSlot_cbValue (m : MemberSlotObj) : MemberBinding :=
  { inst := m.inst, fn := m.fn }

/-! ### Concrete worlds used by witnesses and counterexamples -/

/-- The empty world: no connections anywhere. -/
def wEmpty : World Nat :=
  { sigSlots := fun _ => [], slotSigs := fun _ => [], cb := fun _ => 0 }

/-- Signal 0 and slot 0 connected to each other, nothing else. -/
def wPair : World Nat :=
  { sigSlots := fun s => if s = 0 then [0] else []
    slotSigs := fun t => if t = 0 then [0] else []
    cb := fun i => i }

/-- Four disjoint connected pairs: signal 0 with slot 5, signal 1 with slot 6,
signal 2 with slot 10, signal 3 with slot 11. -/
def wQuad : World Nat :=
  { sigSlots := fun s =>
      if s = 0 then [5] else if s = 1 then [6] else
      if s = 2 then [10] else if s = 3 then [11] else []
    slotSigs := fun t =>
      if t = 5 then [0] else if t = 6 then [1] else
      if t = 10 then [2] else if t = 11 then [3] else []
    cb := fun i => i }

/-- A `MemberSlot` at address 0 bound to the object at address 100, member 7. -/
def msOrig : MemberSlotObj :=
  { addr := 0, inst := 100, fn := 7 }

/-- Signal 0 connected to slot 1 whose callback is the one rebuilt by copying
`msOrig` to address 8. -/
def wMember : World MemberBinding :=
  { sigSlots := fun s => if s = 0 then [1] else []
    slotSigs := fun t => if t = 1 then [0] else []
    cb := fun _ => MemberSlot_cbValue (MemberSlot_copyCtor 8 msOrig) }

/-! ### Basic lemmas -/

lemma updF_self {β : Type} (f : Nat → β) (i : Nat) (v : β) : updF f i v i = v := by
  simp [updF]

lemma updF_ne {β : Type} (f : Nat → β) (i : Nat) (v : β) {j : Nat} (h : j ≠ i) :
    updF f i v j = f j := by
  simp [updF, h]

lemma updF_apply {β : Type} (f : Nat → β) (i : Nat) (v : β) (j : Nat) :
    updF f i v j = if j = i then v else f j := rfl

lemma mem_removeAll {l : List Nat} {x a : Nat} :
    a ∈ removeAll l x ↔ a ∈ l ∧ a ≠ x := by
  simp [removeAll]

lemma not_mem_removeAll_self (l : List Nat) (x : Nat) : x ∉ removeAll l x := by
  simp [mem_removeAll]

lemma removeAll_eq_self {l : List Nat} {x : Nat} (h : x ∉ l) : removeAll l x = l := by
  apply List.filter_eq_self.mpr
  intro b hb
  simp only [decide_eq_true_eq]
  exact fun hbx => h (hbx ▸ hb)

lemma removeAll_cons_self (r : List Nat) (x : Nat) :
    removeAll (x :: r) x = removeAll r x := by
  simp [removeAll, List.filter_cons]

lemma removeAll_cons_ne (r : List Nat) {a x : Nat} (h : a ≠ x) :
    removeAll (a :: r) x = a :: removeAll r x := by
  simp [removeAll, List.filter_cons, h]

lemma removeAll_idem (l : List Nat) (x : Nat) :
    removeAll (removeAll l x) x = removeAll l x :=
  removeAll_eq_self (not_mem_removeAll_self l x)

lemma removeAll_append (l1 l2 : List Nat) (x : Nat) :
    removeAll (l1 ++ l2) x = removeAll l1 x ++ removeAll l2 x := by
  simp [removeAll, List.filter_append]

lemma removeAll_singleton_self (x : Nat) : removeAll [x] x = [] := by
  simp [removeAll]

lemma length_removeAll_of_nodup {l : List Nat} {x : Nat}
    (hd : l.Nodup) (hm : x ∈ l) : (removeAll l x).length + 1 = l.length := by
  induction l with
  | nil => cases hm
  | cons a r ih =>
    rcases List.nodup_cons.mp hd with ⟨ha, hr⟩
    rcases List.mem_cons.mp hm with h | h
    · rw [← h] at ha
      rw [← h, removeAll_cons_self, removeAll_eq_self ha]
      simp
    · have hax : a ≠ x := fun e => ha (e ▸ h)
      rw [removeAll_cons_ne r hax]
      simp only [List.length_cons]
      rw [← ih hr h]

/-! ### Pointwise characterization of the primitive operations -/

lemma Signal_connect_sigSlots (w : World κ) (s t s2 : Nat) :
    (Signal_connect w s t).sigSlots s2 =
      if t ∈ w.sigSlots s then w.sigSlots s2
      else if s2 = s then w.sigSlots s ++ [t] else w.sigSlots s2 := by
  by_cases h : t ∈ w.sigSlots s
  · simp [Signal_connect, Signal_isConnectedTo, h]
  · simp [Signal_connect, Signal_isConnectedTo, h, updF_apply]

lemma Signal_connect_slotSigs (w : World κ) (s t t2 : Nat) :
    (Signal_connect w s t).slotSigs t2 =
      if t ∈ w.sigSlots s then w.slotSigs t2
      else if t2 = t then w.slotSigs t ++ [s] else w.slotSigs t2 := by
  by_cases h : t ∈ w.sigSlots s
  · simp [Signal_connect, Signal_isConnectedTo, h]
  · simp [Signal_connect, Signal_isConnectedTo, h, updF_apply]

lemma Signal_connect_cb (w : World κ) (s t : Nat) :
    (Signal_connect w s t).cb = w.cb := by
  by_cases h : t ∈ w.sigSlots s <;>
    simp [Signal_connect, Signal_isConnectedTo, h]

lemma Signal_removeSlot_sigSlots (w : World κ) (s t s2 : Nat) :
    (Signal_removeSlot w s t).sigSlots s2 =
      if s2 = s then removeAll (w.sigSlots s) t else w.sigSlots s2 := by
  simp [Signal_removeSlot, updF_apply]

lemma Signal_removeSlot_slotSigs (w : World κ) (s t : Nat) :
    (Signal_removeSlot w s t).slotSigs = w.slotSigs := rfl

lemma Signal_removeSlot_cb (w : World κ) (s t : Nat) :
    (Signal_removeSlot w s t).cb = w.cb := rfl

lemma Slot_removeSignal_slotSigs (w : World κ) (t s t2 : Nat) :
    (Slot_removeSignal w t s).slotSigs t2 =
      if t2 = t then removeAll (w.slotSigs t) s else w.slotSigs t2 := by
  simp [Slot_removeSignal, updF_apply]

lemma Slot_removeSignal_sigSlots (w : World κ) (t s : Nat) :
    (Slot_removeSignal w t s).sigSlots = w.sigSlots := rfl

lemma Slot_removeSignal_cb (w : World κ) (t s : Nat) :
    (Slot_removeSignal w t s).cb = w.cb := rfl

lemma Signal_disconnect_sigSlots (w : World κ) (s t s2 : Nat) :
    (Signal_disconnect w s t).sigSlots s2 =
      if s2 = s then removeAll (w.sigSlots s) t else w.sigSlots s2 := by
  simp [Signal_disconnect, Slot_removeSignal_sigSlots, Signal_removeSlot_sigSlots]

lemma Signal_disconnect_slotSigs (w : World κ) (s t t2 : Nat) :
    (Signal_disconnect w s t).slotSigs t2 =
      if t2 = t then removeAll (w.slotSigs t) s else w.slotSigs t2 := by
  simp [Signal_disconnect, Slot_removeSignal_slotSigs, Signal_removeSlot_slotSigs]

lemma Signal_disconnect_cb (w : World κ) (s t : Nat) :
    (Signal_disconnect w s t).cb = w.cb := rfl

/-! ### The removal folds inside `disconnectAll` -/

lemma foldl_removeSlot_sigSlots (t : Nat) :
    ∀ (l : List Nat) (w : World κ) (s : Nat),
      ((l.foldl (fun acc x => Signal_removeSlot acc x t) w).sigSlots) s =
        if s ∈ l then removeAll (w.sigSlots s) t else w.sigSlots s := by
  intro l
  induction l with
  | nil => intro w s; simp
  | cons a r ih =>
    intro w s
    rw [List.foldl_cons, ih, Signal_removeSlot_sigSlots]
    by_cases hsa : s = a
    · subst hsa
      by_cases hs : s ∈ r <;> simp [hs, removeAll_idem]
    · by_cases hs : s ∈ r <;> simp [hs, hsa]

lemma foldl_removeSlot_slotSigs (t : Nat) :
    ∀ (l : List Nat) (w : World κ),
      ((l.foldl (fun acc x => Signal_removeSlot acc x t) w).slotSigs) = w.slotSigs := by
  intro l
  induction l with
  | nil => intro w; rfl
  | cons a r ih => intro w; rw [List.foldl_cons, ih, Signal_removeSlot_slotSigs]

lemma foldl_removeSlot_cb (t : Nat) :
    ∀ (l : List Nat) (w : World κ),
      ((l.foldl (fun acc x => Signal_removeSlot acc x t) w).cb) = w.cb := by
  intro l
  induction l with
  | nil => intro w; rfl
  | cons a r ih => intro w; rw [List.foldl_cons, ih, Signal_removeSlot_cb]

lemma foldl_removeSignal_slotSigs (s : Nat) :
    ∀ (l : List Nat) (w : World κ) (t : Nat),
      ((l.foldl (fun acc x => Slot_removeSignal acc x s) w).slotSigs) t =
        if t ∈ l then removeAll (w.slotSigs t) s else w.slotSigs t := by
  intro l
  induction l with
  | nil => intro w t; simp
  | cons a r ih =>
    intro w t
    rw [List.foldl_cons, ih, Slot_removeSignal_slotSigs]
    by_cases hta : t = a
    · subst hta
      by_cases ht : t ∈ r <;> simp [ht, removeAll_idem]
    · by_cases ht : t ∈ r <;> simp [ht, hta]

lemma foldl_removeSignal_sigSlots (s : Nat) :
    ∀ (l : List Nat) (w : World κ),
      ((l.foldl (fun acc x => Slot_removeSignal acc x s) w).sigSlots) = w.sigSlots := by
  intro l
  induction l with
  | nil => intro w; rfl
  | cons a r ih => intro w; rw [List.foldl_cons, ih, Slot_removeSignal_sigSlots]

lemma foldl_removeSignal_cb (s : Nat) :
    ∀ (l : List Nat) (w : World κ),
      ((l.foldl (fun acc x => Slot_removeSignal acc x s) w).cb) = w.cb := by
  intro l
  induction l with
  | nil => intro w; rfl
  | cons a r ih => intro w; rw [List.foldl_cons, ih, Slot_removeSignal_cb]

lemma Slot_disconnectAll_slotSigs (w : World κ) (t t2 : Nat) :
    (Slot_disconnectAll w t).slotSigs t2 =
      if t2 = t then [] else w.slotSigs t2 := by
  unfold Slot_disconnectAll
  simp only [updF_apply, foldl_removeSlot_slotSigs]

lemma Slot_disconnectAll_sigSlots (w : World κ) (t s : Nat) :
    (Slot_disconnectAll w t).sigSlots s =
      if s ∈ w.slotSigs t then removeAll (w.sigSlots s) t else w.sigSlots s := by
  unfold Slot_disconnectAll
  simp only [foldl_removeSlot_sigSlots]

lemma Slot_disconnectAll_cb (w : World κ) (t : Nat) :
    (Slot_disconnectAll w t).cb = w.cb := by
  unfold Slot_disconnectAll
  simp only [foldl_removeSlot_cb]

lemma Signal_disconnectAll_sigSlots (w : World κ) (s s2 : Nat) :
    (Signal_disconnectAll w s).sigSlots s2 =
      if s2 = s then [] else w.sigSlots s2 := by
  unfold Signal_disconnectAll
  simp only [updF_apply, foldl_removeSignal_sigSlots]

lemma Signal_disconnectAll_slotSigs (w : World κ) (s t : Nat) :
    (Signal_disconnectAll w s).slotSigs t =
      if t ∈ w.sigSlots s then removeAll (w.slotSigs t) s else w.slotSigs t := by
  unfold Signal_disconnectAll
  simp only [foldl_removeSignal_slotSigs]

lemma Signal_disconnectAll_cb (w : World κ) (s : Nat) :
    (Signal_disconnectAll w s).cb = w.cb := by
  unfold Signal_disconnectAll
  simp only [foldl_removeSignal_cb]

/-! ### The connect folds inside `copyConnectionsFrom` -/

lemma foldl_connect_sig_sigSlots_other (dst : Nat) :
    ∀ (l : List Nat) (w : World κ) (s2 : Nat), s2 ≠ dst →
      ((l.foldl (fun acc t => Signal_connect acc dst t) w).sigSlots) s2 = w.sigSlots s2 := by
  intro l
  induction l with
  | nil => intro w s2 _; rfl
  | cons a r ih =>
    intro w s2 h
    rw [List.foldl_cons, ih _ _ h, Signal_connect_sigSlots]
    by_cases hc : a ∈ w.sigSlots dst <;> simp [hc, h]

lemma foldl_connect_sig_slotSigs_notmem (dst : Nat) :
    ∀ (l : List Nat) (w : World κ) (t2 : Nat), t2 ∉ l →
      ((l.foldl (fun acc t => Signal_connect acc dst t) w).slotSigs) t2 = w.slotSigs t2 := by
  intro l
  induction l with
  | nil => intro w t2 _; rfl
  | cons a r ih =>
    intro w t2 h
    simp only [List.mem_cons, not_or] at h
    rw [List.foldl_cons, ih _ _ h.2, Signal_connect_slotSigs]
    by_cases hc : a ∈ w.sigSlots dst <;> simp [hc, h.1]

lemma foldl_connect_sig_sigSlots_dst (dst : Nat) :
    ∀ (l : List Nat) (w : World κ), l.Nodup → (∀ x ∈ l, x ∉ w.sigSlots dst) →
      ((l.foldl (fun acc t => Signal_connect acc dst t) w).sigSlots) dst =
        w.sigSlots dst ++ l := by
  intro l
  induction l with
  | nil => intro w _ _; simp
  | cons a r ih =>
    intro w hd hf
    rcases List.nodup_cons.mp hd with ⟨ha, hr⟩
    have hna : a ∉ w.sigSlots dst := hf a (List.mem_cons_self a r)
    rw [List.foldl_cons]
    have hstep : (Signal_connect w dst a).sigSlots dst = w.sigSlots dst ++ [a] := by
      rw [Signal_connect_sigSlots]; simp [hna]
    have hf2 : ∀ x ∈ r, x ∉ (Signal_connect w dst a).sigSlots dst := by
      intro x hx
      rw [hstep]
      simp only [List.mem_append, List.mem_singleton, not_or]
      exact ⟨hf x (List.mem_cons_of_mem a hx), fun e => ha (e ▸ hx)⟩
    rw [ih _ hr hf2, hstep, List.append_assoc]
    rfl

lemma foldl_connect_sig_cb (dst : Nat) :
    ∀ (l : List Nat) (w : World κ),
      ((l.foldl (fun acc t => Signal_connect acc dst t) w).cb) = w.cb := by
  intro l
  induction l with
  | nil => intro w; rfl
  | cons a r ih => intro w; rw [List.foldl_cons, ih, Signal_connect_cb]

lemma foldl_connect_slot_slotSigs_other (dst : Nat) :
    ∀ (l : List Nat) (w : World κ) (t2 : Nat), t2 ≠ dst →
      ((l.foldl (fun acc s => Signal_connect acc s dst) w).slotSigs) t2 = w.slotSigs t2 := by
  intro l
  induction l with
  | nil => intro w t2 _; rfl
  | cons a r ih =>
    intro w t2 h
    rw [List.foldl_cons, ih _ _ h, Signal_connect_slotSigs]
    by_cases hc : dst ∈ w.sigSlots a <;> simp [hc, h]

lemma foldl_connect_slot_sigSlots (dst : Nat) :
    ∀ (l : List Nat) (w : World κ) (s : Nat), l.Nodup →
      (∀ x ∈ l, dst ∉ w.sigSlots x) →
      ((l.foldl (fun acc s2 => Signal_connect acc s2 dst) w).sigSlots) s =
        if s ∈ l then w.sigSlots s ++ [dst] else w.sigSlots s := by
  intro l
  induction l with
  | nil => intro w s _ _; simp
  | cons a r ih =>
    intro w s hd hf
    rcases List.nodup_cons.mp hd with ⟨ha, hr⟩
    have hna : dst ∉ w.sigSlots a := hf a (List.mem_cons_self a r)
    have hstep : ∀ s2, (Signal_connect w a dst).sigSlots s2 =
        if s2 = a then w.sigSlots a ++ [dst] else w.sigSlots s2 := by
      intro s2
      rw [Signal_connect_sigSlots]
      simp [hna]
    have hf2 : ∀ x ∈ r, dst ∉ (Signal_connect w a dst).sigSlots x := by
      intro x hx
      have hxa : x ≠ a := fun e => ha (e ▸ hx)
      rw [hstep x, if_neg hxa]
      exact hf x (List.mem_cons_of_mem a hx)
    rw [List.foldl_cons, ih _ _ hr hf2, hstep s]
    by_cases hsa : s = a
    · subst hsa
      simp [ha, hstep]
    · by_cases hs : s ∈ r <;> simp [hs, hsa]

lemma foldl_connect_slot_slotSigs_dst (dst : Nat) :
    ∀ (l : List Nat) (w : World κ), l.Nodup → (∀ x ∈ l, dst ∉ w.sigSlots x) →
      ((l.foldl (fun acc s => Signal_connect acc s dst) w).slotSigs) dst =
        w.slotSigs dst ++ l := by
  intro l
  induction l with
  | nil => intro w _ _; simp
  | cons a r ih =>
    intro w hd hf
    rcases List.nodup_cons.mp hd with ⟨ha, hr⟩
    have hna : dst ∉ w.sigSlots a := hf a (List.mem_cons_self a r)
    have hstep : (Signal_connect w a dst).slotSigs dst = w.slotSigs dst ++ [a] := by
      rw [Signal_connect_slotSigs]; simp [hna]
    have hf2 : ∀ x ∈ r, dst ∉ (Signal_connect w a dst).sigSlots x := by
      intro x hx
      have hxa : x ≠ a := fun e => ha (e ▸ hx)
      rw [Signal_connect_sigSlots]
      simp only [hna, if_false]
      rw [if_neg hxa]
      exact hf x (List.mem_cons_of_mem a hx)
    rw [List.foldl_cons, ih _ hr hf2, hstep, List.append_assoc]
    rfl

lemma foldl_connect_slot_cb (dst : Nat) :
    ∀ (l : List Nat) (w : World κ),
      ((l.foldl (fun acc s => Signal_connect acc s dst) w).cb) = w.cb := by
  intro l
  induction l with
  | nil => intro w; rfl
  | cons a r ih => intro w; rw [List.foldl_cons, ih, Signal_connect_cb]

/-! ### Preservation of the mutual-registration invariant -/

lemma symm_connect {w : World κ} (h : Symm w) (s t : Nat) :
    Symm (Signal_connect w s t) := by
  intro s2 t2
  rw [Signal_connect_slotSigs, Signal_connect_sigSlots]
  by_cases hc : t ∈ w.sigSlots s
  · rw [if_pos hc, if_pos hc]
    exact h s2 t2
  · rw [if_neg hc, if_neg hc]
    by_cases ht2 : t2 = t
    · subst ht2
      by_cases hs2 : s2 = s
      · subst hs2
        rw [if_pos rfl, if_pos rfl]
        simp
      · rw [if_pos rfl, if_neg hs2]
        simp only [List.mem_append, List.mem_singleton, hs2, or_false]
        exact h s2 t2
    · by_cases hs2 : s2 = s
      · subst hs2
        rw [if_neg ht2, if_pos rfl]
        simp only [List.mem_append, List.mem_singleton, ht2, or_false]
        exact h s2 t2
      · rw [if_neg ht2, if_neg hs2]
        exact h s2 t2

lemma symm_disconnect {w : World κ} (h : Symm w) (s t : Nat) :
    Symm (Signal_disconnect w s t) := by
  intro s2 t2
  rw [Signal_disconnect_slotSigs, Signal_disconnect_sigSlots]
  by_cases ht2 : t2 = t
  · subst ht2
    by_cases hs2 : s2 = s
    · subst hs2
      rw [if_pos rfl, if_pos rfl]
      simp [not_mem_removeAll_self]
    · rw [if_pos rfl, if_neg hs2]
      constructor
      · intro hx
        exact (h s2 t2).mp (mem_removeAll.mp hx).1
      · intro hx
        exact mem_removeAll.mpr ⟨(h s2 t2).mpr hx, hs2⟩
  · by_cases hs2 : s2 = s
    · subst hs2
      rw [if_neg ht2, if_pos rfl]
      constructor
      · intro hx
        exact mem_removeAll.mpr ⟨(h s2 t2).mp hx, ht2⟩
      · intro hx
        exact (h s2 t2).mpr (mem_removeAll.mp hx).1
    · rw [if_neg ht2, if_neg hs2]
      exact h s2 t2

lemma symm_slotDisconnectAll {w : World κ} (h : Symm w) (t : Nat) :
    Symm (Slot_disconnectAll w t) := by
  intro s2 t2
  rw [Slot_disconnectAll_slotSigs, Slot_disconnectAll_sigSlots]
  by_cases ht2 : t2 = t
  · subst ht2
    rw [if_pos rfl]
    simp only [List.not_mem_nil, false_iff]
    by_cases hm : s2 ∈ w.slotSigs t2
    · rw [if_pos hm]
      exact not_mem_removeAll_self _ _
    · rw [if_neg hm]
      exact fun hc => hm ((h s2 t2).mpr hc)
  · rw [if_neg ht2]
    by_cases hm : s2 ∈ w.slotSigs t
    · rw [if_pos hm]
      constructor
      · intro hx
        exact mem_removeAll.mpr ⟨(h s2 t2).mp hx, ht2⟩
      · intro hx
        exact (h s2 t2).mpr (mem_removeAll.mp hx).1
    · rw [if_neg hm]
      exact h s2 t2

lemma symm_signalDisconnectAll {w : World κ} (h : Symm w) (s : Nat) :
    Symm (Signal_disconnectAll w s) := by
  intro s2 t2
  rw [Signal_disconnectAll_slotSigs, Signal_disconnectAll_sigSlots]
  by_cases hs2 : s2 = s
  · subst hs2
    rw [if_pos rfl]
    simp only [List.not_mem_nil, iff_false]
    by_cases hm : t2 ∈ w.sigSlots s2
    · rw [if_pos hm]
      exact not_mem_removeAll_self _ _
    · rw [if_neg hm]
      exact fun hc => hm ((h s2 t2).mp hc)
  · rw [if_neg hs2]
    by_cases hm : t2 ∈ w.sigSlots s
    · rw [if_pos hm]
      constructor
      · intro hx
        exact (h s2 t2).mp (mem_removeAll.mp hx).1
      · intro hx
        exact mem_removeAll.mpr ⟨(h s2 t2).mpr hx, hs2⟩
    · rw [if_neg hm]
      exact h s2 t2

lemma symm_foldl_connect_sig {dst : Nat} :
    ∀ (l : List Nat) {w : World κ}, Symm w →
      Symm (l.foldl (fun acc t => Signal_connect acc dst t) w) := by
  intro l
  induction l with
  | nil => intro w h; exact h
  | cons a r ih =>
    intro w h
    rw [List.foldl_cons]
    exact ih (symm_connect h dst a)

lemma symm_foldl_connect_slot {dst : Nat} :
    ∀ (l : List Nat) {w : World κ}, Symm w →
      Symm (l.foldl (fun acc s => Signal_connect acc s dst) w) := by
  intro l
  induction l with
  | nil => intro w h; exact h
  | cons a r ih =>
    intro w h
    rw [List.foldl_cons]
    exact ih (symm_connect h a dst)

lemma symm_cb_update {w : World κ} (h : Symm w) (c : Nat → κ) :
    Symm { w with cb := c } := h

lemma symm_slotCopyConnectionsFrom {w : World κ} (h : Symm w) (dst src : Nat) :
    Symm (Slot_copyConnectionsFrom w dst src) :=
  symm_foldl_connect_slot _ h

lemma symm_signalCopyConnectionsFrom {w : World κ} (h : Symm w) (dst src : Nat) :
    Symm (Signal_copyConnectionsFrom w dst src) :=
  symm_foldl_connect_sig _ h

/-! ### Symmetry of the concrete worlds -/

lemma symm_wEmpty : Symm wEmpty := by
  intro s t
  simp [wEmpty]

lemma symm_wPair : Symm wPair := by
  intro s t
  by_cases hs : s = 0 <;> by_cases ht : t = 0 <;>
    simp [wPair, hs, ht]

lemma symm_wQuad : Symm wQuad := by
  intro s t
  simp only [wQuad]
  split_ifs <;> simp_all

lemma Slot_copyConnectionsFrom_cb (w : World κ) (dst src : Nat) :
    (Slot_copyConnectionsFrom w dst src).cb = w.cb :=
  foldl_connect_slot_cb dst _ w

lemma Signal_copyConnectionsFrom_cb (w : World κ) (dst src : Nat) :
    (Signal_copyConnectionsFrom w dst src).cb = w.cb :=
  foldl_connect_sig_cb dst _ w

lemma Signal_connect_of_connected {w : World κ} {s t : Nat} (h : t ∈ w.sigSlots s) :
    Signal_connect w s t = w := by
  simp [Signal_connect, Signal_isConnectedTo, h]

/-! ### Claim theorems -/

/-- C1: Mutual-registration invariant: in every world where, for every signal
and slot, the slot is registered at the signal exactly when the signal is
registered at the slot, any operation of the public interface (connect,
disconnect, disconnectAll, emit, construction, destruction, copy and move
construction and assignment) leads to a world where the same symmetric
relation holds. -/
theorem mutual_registration_preserved (op : Op κ) (w : World κ) (h : Symm w) :
    Symm (op.apply w) := by
  cases op with
  | connect s t => exact symm_connect h s t
  | disconnect s t => exact symm_disconnect h s t
  | slotDisconnectAll t => exact symm_slotDisconnectAll h t
  | signalDisconnectAll s => exact symm_signalDisconnectAll h s
  | emit s => exact h
  | slotCtor t c => exact symm_cb_update h _
  | signalCtor s => exact h
  | slotDtor t => exact symm_slotDisconnectAll h t
  | signalDtor s => exact symm_signalDisconnectAll h s
  | slotCopyCtor dst src =>
    exact symm_cb_update (symm_slotCopyConnectionsFrom h dst src) _
  | slotMoveCtor dst src =>
    exact symm_cb_update (symm_slotDisconnectAll (symm_slotCopyConnectionsFrom h dst src) src) _
  | slotCopyAssign dst src =>
    exact symm_cb_update
      (symm_slotCopyConnectionsFrom (symm_slotDisconnectAll h dst) dst src) _
  | slotMoveAssign dst src =>
    exact symm_cb_update (symm_slotDisconnectAll
      (symm_slotCopyConnectionsFrom (symm_slotDisconnectAll h dst) dst src) src) _
  | signalCopyCtor dst src => exact symm_signalCopyConnectionsFrom h dst src
  | signalMoveCtor dst src =>
    exact symm_signalDisconnectAll (symm_signalCopyConnectionsFrom h dst src) src
  | signalCopyAssign dst src =>
    exact symm_signalCopyConnectionsFrom (symm_signalDisconnectAll h dst) dst src
  | signalMoveAssign dst src =>
    exact symm_signalDisconnectAll
      (symm_signalCopyConnectionsFrom (symm_signalDisconnectAll h dst) dst src) src

/-- Witness for C1: the invariant holds after a concrete `connect` on the
concrete symmetric world `wPair`. -/
theorem mutual_registration_preserved_witness :
    Symm ((Op.connect 1 1).apply wPair) :=
  mutual_registration_preserved (Op.connect 1 1) wPair symm_wPair

/-- C4: connect is idempotent: a second `connect(s, t)` right after a first
one leaves the whole state (both adjacency maps and the callbacks) exactly as
after the first; a duplicate connect is a complete no-op, never a partial
update of one side. -/
theorem connect_idempotent (w : World κ) (s t : Nat) :
    Signal_connect (Signal_connect w s t) s t = Signal_connect w s t := by
  by_cases h : t ∈ w.sigSlots s
  · rw [Signal_connect_of_connected h]
    exact Signal_connect_of_connected h
  · apply Signal_connect_of_connected
    rw [Signal_connect_sigSlots]
    simp [h]

/-- C3 counterexample: for a pair that is already connected (signal 1 and
slot 1 of `wPair` after a first connect... here directly: signal 0 and slot 0
of `wPair` are connected), `connect` does not increase the connection counts,
so the unconditional claim is false. -/
theorem connect_counts_counterexample :
    ¬ (Signal_connectionCount (Signal_connect wPair 0 0) 0 =
         Signal_connectionCount wPair 0 + 1 ∧
       Slot_connectionCount (Signal_connect wPair 0 0) 0 =
         Slot_connectionCount wPair 0 + 1) := by
  decide

/-- C3 (amended): for every signal `s` and slot `t` NOT already connected,
after `connect(s, t)` both `s.isConnectedTo(t)` and `t.isConnectedTo(s)` hold
and both connection counts increase by exactly 1. -/
theorem connect_fresh_spec (w : World κ) (s t : Nat)
    (h : Signal_isConnectedTo w s t = false) :
    Signal_isConnectedTo (Signal_connect w s t) s t = true ∧
    Slot_isConnectedTo (Signal_connect w s t) t s = true ∧
    Signal_connectionCount (Signal_connect w s t) s = Signal_connectionCount w s + 1 ∧
    Slot_connectionCount (Signal_connect w s t) t = Slot_connectionCount w t + 1 := by
  have hm : t ∉ w.sigSlots s := by
    simpa [Signal_isConnectedTo] using h
  refine ⟨?_, ?_, ?_, ?_⟩
  · simp [Signal_isConnectedTo, Signal_connect_sigSlots, hm]
  · simp [Slot_isConnectedTo, Signal_connect_slotSigs, hm]
  · simp [Signal_connectionCount, Signal_connect_sigSlots, hm]
  · simp [Slot_connectionCount, Signal_connect_slotSigs, hm]

/-- Witness for the amended C3 at the concrete world `wEmpty`, signal 1 and
slot 2. -/
theorem connect_fresh_spec_witness :
    Signal_isConnectedTo (Signal_connect wEmpty 1 2) 1 2 = true ∧
    Slot_isConnectedTo (Signal_connect wEmpty 1 2) 2 1 = true ∧
    Signal_connectionCount (Signal_connect wEmpty 1 2) 1 =
      Signal_connectionCount wEmpty 1 + 1 ∧
    Slot_connectionCount (Signal_connect wEmpty 1 2) 2 =
      Slot_connectionCount wEmpty 2 + 1 :=
  connect_fresh_spec wEmpty 1 2 (by decide)

/-- C5: disconnect is a true inverse of connect on a previously unconnected
pair: after `connect(s,t); disconnect(s,t)` both connection counts equal
their pre-connect values and `isConnectedTo` is false in both directions. -/
theorem connect_disconnect_inverse (w : World κ) (s t : Nat)
    (h1 : Signal_isConnectedTo w s t = false)
    (h2 : Slot_isConnectedTo w t s = false) :
    Signal_connectionCount (Signal_disconnect (Signal_connect w s t) s t) s =
      Signal_connectionCount w s ∧
    Slot_connectionCount (Signal_disconnect (Signal_connect w s t) s t) t =
      Slot_connectionCount w t ∧
    Signal_isConnectedTo (Signal_disconnect (Signal_connect w s t) s t) s t = false ∧
    Slot_isConnectedTo (Signal_disconnect (Signal_connect w s t) s t) t s = false := by
  have hm1 : t ∉ w.sigSlots s := by
    simpa [Signal_isConnectedTo] using h1
  have hm2 : s ∉ w.slotSigs t := by
    simpa [Slot_isConnectedTo] using h2
  have e1 : (Signal_disconnect (Signal_connect w s t) s t).sigSlots s = w.sigSlots s := by
    rw [Signal_disconnect_sigSlots, if_pos rfl, Signal_connect_sigSlots]
    rw [if_neg hm1, if_pos rfl, removeAll_append, removeAll_eq_self hm1,
      removeAll_singleton_self, List.append_nil]
  have e2 : (Signal_disconnect (Signal_connect w s t) s t).slotSigs t = w.slotSigs t := by
    rw [Signal_disconnect_slotSigs, if_pos rfl, Signal_connect_slotSigs]
    rw [if_neg hm1, if_pos rfl, removeAll_append, removeAll_eq_self hm2,
      removeAll_singleton_self, List.append_nil]
  refine ⟨?_, ?_, ?_, ?_⟩
  · rw [Signal_connectionCount, e1, Signal_connectionCount]
  · rw [Slot_connectionCount, e2, Slot_connectionCount]
  · rw [Signal_isConnectedTo, e1]
    exact h1
  · rw [Slot_isConnectedTo, e2]
    exact h2

/-- Witness for C5 at the concrete world `wEmpty`, signal 3 and slot 4. -/
theorem connect_disconnect_inverse_witness :
    Signal_connectionCount (Signal_disconnect (Signal_connect wEmpty 3 4) 3 4) 3 =
      Signal_connectionCount wEmpty 3 ∧
    Slot_connectionCount (Signal_disconnect (Signal_connect wEmpty 3 4) 3 4) 4 =
      Slot_connectionCount wEmpty 4 ∧
    Signal_isConnectedTo (Signal_disconnect (Signal_connect wEmpty 3 4) 3 4) 3 4 = false ∧
    Slot_isConnectedTo (Signal_disconnect (Signal_connect wEmpty 3 4) 3 4) 4 3 = false :=
  connect_disconnect_inverse wEmpty 3 4 (by decide) (by decide)

/-! ### Helpers for counting invocations in an emit trace -/

lemma filter_fst_map_length {α : Type} (t : Nat) (g : Nat → κ × α) :
    ∀ l : List Nat,
      ((l.map (fun x => (x, g x))).filter (fun e => decide (e.1 = t))).length =
        (l.filter (fun x => decide (x = t))).length := by
  intro l
  induction l with
  | nil => rfl
  | cons a r ih =>
    by_cases ha : a = t <;> simp [List.filter_cons, ha, ih]

lemma filter_eq_nil_of_not_mem {t : Nat} {l : List Nat} (h : t ∉ l) :
    l.filter (fun x => decide (x = t)) = [] := by
  apply List.filter_eq_nil_iff.mpr
  intro a ha
  simp only [decide_eq_true_eq]
  exact fun e => h (e ▸ ha)

lemma length_filter_eq_one_of_nodup {t : Nat} :
    ∀ {l : List Nat}, l.Nodup → t ∈ l →
      (l.filter (fun x => decide (x = t))).length = 1 := by
  intro l
  induction l with
  | nil => intro _ hm; cases hm
  | cons a r ih =>
    intro hd hm
    rcases List.nodup_cons.mp hd with ⟨ha, hr⟩
    rcases List.mem_cons.mp hm with h | h
    · rw [← h] at ha ⊢
      rw [List.filter_cons, if_pos (by simp), filter_eq_nil_of_not_mem ha]
      rfl
    · have hat : a ≠ t := fun e => ha (e ▸ h)
      rw [List.filter_cons, if_neg (by simp [hat])]
      exact ih hr h

/-- C6: each call of `emit` invokes each currently connected slot exactly
once, with the exact argument passed, in signal-side insertion order; over
`N` consecutive emits on an unchanged connection set each connected slot is
invoked exactly `N` times.  (A reachable adjacency list is duplicate-free,
which is the `Nodup` hypothesis.) -/
theorem emit_exactly_once_in_order {α : Type} (w : World κ) (s : Nat) (a : α) (t : Nat)
    (hnd : (w.sigSlots s).Nodup) (ht : t ∈ w.sigSlots s) :
    ((Signal_emit w s a).filter (fun e => decide (e.1 = t))).length = 1 ∧
    (Signal_emit w s a).map (fun e => e.1) = w.sigSlots s ∧
    (∀ e ∈ Signal_emit w s a, e.2.1 = w.cb e.1 ∧ e.2.2 = a) ∧
    (∀ N, ((Signal_emitN w s a N).filter (fun e => decide (e.1 = t))).length = N) := by
  have hone : ((Signal_emit w s a).filter (fun e => decide (e.1 = t))).length = 1 := by
    rw [Signal_emit,
      filter_fst_map_length t (fun x => (w.cb x, a)) (w.sigSlots s),
      length_filter_eq_one_of_nodup hnd ht]
  refine ⟨hone, ?_, ?_, ?_⟩
  · rw [Signal_emit, List.map_map]
    exact List.map_id _
  · intro e he
    rw [Signal_emit, List.mem_map] at he
    rcases he with ⟨x, _, rfl⟩
    exact ⟨rfl, rfl⟩
  · intro N
    induction N with
    | zero => rfl
    | succ n ihN =>
      rw [Signal_emitN, List.filter_append, List.length_append, ihN, hone]

/-- Witness for C6 at the concrete world `wPair`, signal 0, slot 0. -/
theorem emit_exactly_once_in_order_witness :
    ((Signal_emit wPair 0 (37 : Nat)).filter (fun e => decide (e.1 = 0))).length = 1 ∧
    (Signal_emit wPair 0 (37 : Nat)).map (fun e => e.1) = wPair.sigSlots 0 ∧
    (∀ e ∈ Signal_emit wPair 0 (37 : Nat), e.2.1 = wPair.cb e.1 ∧ e.2.2 = 37) ∧
    (∀ N, ((Signal_emitN wPair 0 (37 : Nat) N).filter (fun e => decide (e.1 = 0))).length = N) :=
  emit_exactly_once_in_order wPair 0 37 0 (by decide) (by decide)

/-- C2: destruction implies disconnection: if slot `t` is connected to signal
`s` (in a symmetric, duplicate-free world), destroying the slot (its
destructor runs `disconnectAll`) drops the connectionCount of `s` by exactly
one and leaves no signal holding a reference to `t`; symmetrically,
destroying the signal drops the connectionCount of `t` by exactly one and
leaves no slot holding a reference to `s`. -/
theorem destruction_disconnects (w : World κ) (s t : Nat)
    (hsym : Symm w) (hm : t ∈ w.sigSlots s)
    (hnd1 : (w.sigSlots s).Nodup) (hnd2 : (w.slotSigs t).Nodup) :
    Signal_connectionCount (Slot_dtor w t) s + 1 = Signal_connectionCount w s ∧
    Signal_isConnectedTo (Slot_dtor w t) s t = false ∧
    (∀ s2, Signal_isConnectedTo (Slot_dtor w t) s2 t = false) ∧
    Slot_connectionCount (Signal_dtor w s) t + 1 = Slot_connectionCount w t ∧
    Slot_isConnectedTo (Signal_dtor w s) t s = false ∧
    (∀ t2, Slot_isConnectedTo (Signal_dtor w s) t2 s = false) := by
  have hm2 : s ∈ w.slotSigs t := (hsym s t).mpr hm
  have allSig : ∀ s2, t ∉ (Slot_dtor w t).sigSlots s2 := by
    intro s2
    rw [Slot_dtor, Slot_disconnectAll_sigSlots]
    by_cases hc : s2 ∈ w.slotSigs t
    · rw [if_pos hc]
      exact not_mem_removeAll_self _ _
    · rw [if_neg hc]
      exact fun hx => hc ((hsym s2 t).mpr hx)
  have allSlot : ∀ t2, s ∉ (Signal_dtor w s).slotSigs t2 := by
    intro t2
    rw [Signal_dtor, Signal_disconnectAll_slotSigs]
    by_cases hc : t2 ∈ w.sigSlots s
    · rw [if_pos hc]
      exact not_mem_removeAll_self _ _
    · rw [if_neg hc]
      exact fun hx => hc ((hsym s t2).mp hx)
  refine ⟨?_, ?_, ?_, ?_, ?_, ?_⟩
  · rw [Signal_connectionCount, Signal_connectionCount, Slot_dtor,
      Slot_disconnectAll_sigSlots, if_pos hm2]
    exact length_removeAll_of_nodup hnd1 hm
  · simp only [Signal_isConnectedTo, decide_eq_false_iff_not]
    exact allSig s
  · intro s2
    simp only [Signal_isConnectedTo, decide_eq_false_iff_not]
    exact allSig s2
  · rw [Slot_connectionCount, Slot_connectionCount, Signal_dtor,
      Signal_disconnectAll_slotSigs, if_pos hm]
    exact length_removeAll_of_nodup hnd2 hm2
  · simp only [Slot_isConnectedTo, decide_eq_false_iff_not]
    exact allSlot t
  · intro t2
    simp only [Slot_isConnectedTo, decide_eq_false_iff_not]
    exact allSlot t2

/-- Witness for C2 at the concrete world `wPair`, signal 0 and slot 0. -/
theorem destruction_disconnects_witness :
    Signal_connectionCount (Slot_dtor wPair 0) 0 + 1 = Signal_connectionCount wPair 0 ∧
    Signal_isConnectedTo (Slot_dtor wPair 0) 0 0 = false ∧
    (∀ s2, Signal_isConnectedTo (Slot_dtor wPair 0) s2 0 = false) ∧
    Slot_connectionCount (Signal_dtor wPair 0) 0 + 1 = Slot_connectionCount wPair 0 ∧
    Slot_isConnectedTo (Signal_dtor wPair 0) 0 0 = false ∧
    (∀ t2, Slot_isConnectedTo (Signal_dtor wPair 0) t2 0 = false) :=
  destruction_disconnects wPair 0 0 symm_wPair (by decide) (by decide) (by decide)

/-- C7: moving a slot `src` connected to exactly one signal `s` into a fresh
slot `dst`: afterwards the moved-to slot has connectionCount 1, the moved-from
slot has connectionCount 0, the signal still has connectionCount 1 and its
adjacency list refers to `dst` (not to the stale `src`), and emitting the
signal produces exactly one invocation, of the moved-to slot with the
callback that `src` held before the move. -/
theorem slot_move_ctor_spec {α : Type} (w : World κ) (dst src s : Nat) (a : α)
    (h1 : w.slotSigs src = [s]) (h2 : w.sigSlots s = [src])
    (h3 : w.slotSigs dst = []) (h4 : dst ≠ src) :
    Slot_connectionCount (Slot_moveCtor w dst src) dst = 1 ∧
    Slot_connectionCount (Slot_moveCtor w dst src) src = 0 ∧
    Signal_connectionCount (Slot_moveCtor w dst src) s = 1 ∧
    (Slot_moveCtor w dst src).sigSlots s = [dst] ∧
    Signal_emit (Slot_moveCtor w dst src) s a = [(dst, w.cb src, a)] := by
  have hnm : dst ∉ w.sigSlots s := by
    rw [h2]
    simp [h4]
  have ecopy : Slot_copyConnectionsFrom w dst src = Signal_connect w s dst := by
    rw [Slot_copyConnectionsFrom, h1]
    rfl
  have eA : (Signal_connect w s dst).sigSlots s = [src, dst] := by
    rw [Signal_connect_sigSlots, if_neg hnm, if_pos rfl, h2]
    rfl
  have eDst : (Signal_connect w s dst).slotSigs dst = [s] := by
    rw [Signal_connect_slotSigs, if_neg hnm, if_pos rfl, h3]
    rfl
  have eSrc : (Signal_connect w s dst).slotSigs src = [s] := by
    rw [Signal_connect_slotSigs, if_neg hnm, if_neg (Ne.symm h4)]
    exact h1
  have fSlotDst : (Slot_moveCtor w dst src).slotSigs dst = [s] := by
    show (Slot_disconnectAll (Slot_copyConnectionsFrom w dst src) src).slotSigs dst = [s]
    rw [Slot_disconnectAll_slotSigs, if_neg h4, ecopy, eDst]
  have fSlotSrc : (Slot_moveCtor w dst src).slotSigs src = [] := by
    show (Slot_disconnectAll (Slot_copyConnectionsFrom w dst src) src).slotSigs src = []
    rw [Slot_disconnectAll_slotSigs, if_pos rfl]
  have fSig : (Slot_moveCtor w dst src).sigSlots s = [dst] := by
    show (Slot_disconnectAll (Slot_copyConnectionsFrom w dst src) src).sigSlots s = [dst]
    rw [Slot_disconnectAll_sigSlots, ecopy, eSrc, eA]
    rw [if_pos (List.mem_singleton.mpr rfl), removeAll_cons_self,
      removeAll_cons_ne _ h4, removeAll_eq_self (by simp)]
  have fCb : (Slot_moveCtor w dst src).cb dst = w.cb src := by
    show (swapCb (Slot_disconnectAll (Slot_copyConnectionsFrom w dst src) src).cb dst src) dst
      = w.cb src
    rw [swapCb, if_pos rfl, Slot_disconnectAll_cb, Slot_copyConnectionsFrom_cb]
  refine ⟨?_, ?_, ?_, fSig, ?_⟩
  · rw [Slot_connectionCount, fSlotDst]
    rfl
  · rw [Slot_connectionCount, fSlotSrc]
    rfl
  · rw [Signal_connectionCount, fSig]
    rfl
  · rw [Signal_emit, fSig, List.map_singleton, fCb]

/-- Witness for C7 at the concrete world `wPair` (slot 0 connected to signal 0),
moving slot 0 into the fresh slot 1. -/
theorem slot_move_ctor_spec_witness :
    Slot_connectionCount (Slot_moveCtor wPair 1 0) 1 = 1 ∧
    Slot_connectionCount (Slot_moveCtor wPair 1 0) 0 = 0 ∧
    Signal_connectionCount (Slot_moveCtor wPair 1 0) 0 = 1 ∧
    (Slot_moveCtor wPair 1 0).sigSlots 0 = [1] ∧
    Signal_emit (Slot_moveCtor wPair 1 0) 0 (5 : Nat) = [(1, wPair.cb 0, 5)] :=
  slot_move_ctor_spec wPair 1 0 0 5 (by decide) (by decide) (by decide) (by decide)

/-- C8: copy and move assignment onto a signal or slot with pre-existing
connections first sever those connections: a prior counterpart connected only
to the assignment target ends with connectionCount 0 and no longer connected
to the target, and the target ends holding exactly the adjacency list the
source had before the assignment.  Stated for all four assignment operations:
signal copy, signal move, slot copy, slot move (the self-assignment case
`src = dst` is excluded; reachable adjacency lists are duplicate-free). -/
theorem assign_severs_prior (w : World κ) (sDst sSrc tDst tSrc p q : Nat)
    (hsym : Symm w)
    (hp : w.slotSigs p = [sDst]) (hq : w.sigSlots q = [tDst])
    (hs : sSrc ≠ sDst) (ht : tSrc ≠ tDst)
    (hnds : (w.sigSlots sSrc).Nodup) (hndt : (w.slotSigs tSrc).Nodup) :
    (Slot_connectionCount (Signal_copyAssign w sDst sSrc) p = 0 ∧
     Slot_isConnectedTo (Signal_copyAssign w sDst sSrc) p sDst = false ∧
     (Signal_copyAssign w sDst sSrc).sigSlots sDst = w.sigSlots sSrc) ∧
    (Slot_connectionCount (Signal_moveAssign w sDst sSrc) p = 0 ∧
     Slot_isConnectedTo (Signal_moveAssign w sDst sSrc) p sDst = false ∧
     (Signal_moveAssign w sDst sSrc).sigSlots sDst = w.sigSlots sSrc) ∧
    (Signal_connectionCount (Slot_copyAssign w tDst tSrc) q = 0 ∧
     Signal_isConnectedTo (Slot_copyAssign w tDst tSrc) q tDst = false ∧
     (Slot_copyAssign w tDst tSrc).slotSigs tDst = w.slotSigs tSrc) ∧
    (Signal_connectionCount (Slot_moveAssign w tDst tSrc) q = 0 ∧
     Signal_isConnectedTo (Slot_moveAssign w tDst tSrc) q tDst = false ∧
     (Slot_moveAssign w tDst tSrc).slotSigs tDst = w.slotSigs tSrc) := by
  -- signal side
  have hpmem : p ∈ w.sigSlots sDst :=
    (hsym sDst p).mp (by rw [hp]; exact List.mem_singleton.mpr rfl)
  have hpnot : p ∉ w.sigSlots sSrc := by
    intro hx
    have hm : sSrc ∈ w.slotSigs p := (hsym sSrc p).mpr hx
    rw [hp] at hm
    exact hs (List.mem_singleton.mp hm)
  have f1 : (Signal_disconnectAll w sDst).sigSlots sDst = [] := by
    rw [Signal_disconnectAll_sigSlots, if_pos rfl]
  have f2 : (Signal_disconnectAll w sDst).sigSlots sSrc = w.sigSlots sSrc := by
    rw [Signal_disconnectAll_sigSlots, if_neg hs]
  have f3 : (Signal_disconnectAll w sDst).slotSigs p = [] := by
    rw [Signal_disconnectAll_slotSigs, if_pos hpmem, hp, removeAll_singleton_self]
  have hguard : ∀ x ∈ w.sigSlots sSrc, x ∉ (Signal_disconnectAll w sDst).sigSlots sDst := by
    intro x _
    rw [f1]
    exact List.not_mem_nil x
  have gA : (Signal_copyAssign w sDst sSrc).slotSigs p = [] := by
    rw [Signal_copyAssign, Signal_copyConnectionsFrom, f2,
      foldl_connect_sig_slotSigs_notmem sDst _ _ p hpnot]
    exact f3
  have gB : (Signal_copyAssign w sDst sSrc).sigSlots sDst = w.sigSlots sSrc := by
    rw [Signal_copyAssign, Signal_copyConnectionsFrom, f2,
      foldl_connect_sig_sigSlots_dst sDst _ _ hnds hguard, f1]
    rfl
  have gSrc : (Signal_copyAssign w sDst sSrc).sigSlots sSrc = w.sigSlots sSrc := by
    rw [Signal_copyAssign, Signal_copyConnectionsFrom, f2,
      foldl_connect_sig_sigSlots_other sDst _ _ sSrc hs]
    exact f2
  have mA : (Signal_moveAssign w sDst sSrc).slotSigs p = [] := by
    show (Signal_disconnectAll (Signal_copyAssign w sDst sSrc) sSrc).slotSigs p = []
    rw [Signal_disconnectAll_slotSigs, gSrc, if_neg hpnot]
    exact gA
  have mB : (Signal_moveAssign w sDst sSrc).sigSlots sDst = w.sigSlots sSrc := by
    show (Signal_disconnectAll (Signal_copyAssign w sDst sSrc) sSrc).sigSlots sDst
      = w.sigSlots sSrc
    rw [Signal_disconnectAll_sigSlots, if_neg (Ne.symm hs)]
    exact gB
  -- slot side
  have hqmem : q ∈ w.slotSigs tDst :=
    (hsym q tDst).mpr (by rw [hq]; exact List.mem_singleton.mpr rfl)
  have hqnot : q ∉ w.slotSigs tSrc := by
    intro hx
    have hm : tSrc ∈ w.sigSlots q := (hsym q tSrc).mp hx
    rw [hq] at hm
    exact ht (List.mem_singleton.mp hm)
  have f1t : (Slot_disconnectAll w tDst).slotSigs tDst = [] := by
    rw [Slot_disconnectAll_slotSigs, if_pos rfl]
  have f2t : (Slot_disconnectAll w tDst).slotSigs tSrc = w.slotSigs tSrc := by
    rw [Slot_disconnectAll_slotSigs, if_neg ht]
  have f3t : (Slot_disconnectAll w tDst).sigSlots q = [] := by
    rw [Slot_disconnectAll_sigSlots, if_pos hqmem, hq, removeAll_singleton_self]
  have hguardt : ∀ x ∈ w.slotSigs tSrc, tDst ∉ (Slot_disconnectAll w tDst).sigSlots x := by
    intro x _
    rw [Slot_disconnectAll_sigSlots]
    by_cases hc : x ∈ w.slotSigs tDst
    · rw [if_pos hc]
      exact not_mem_removeAll_self _ _
    · rw [if_neg hc]
      exact fun hx2 => hc ((hsym x tDst).mpr hx2)
  have gAt : (Slot_copyAssign w tDst tSrc).sigSlots q = [] := by
    show (Slot_copyConnectionsFrom (Slot_disconnectAll w tDst) tDst tSrc).sigSlots q = []
    rw [Slot_copyConnectionsFrom, f2t,
      foldl_connect_slot_sigSlots tDst _ _ q hndt hguardt, if_neg hqnot]
    exact f3t
  have gBt : (Slot_copyAssign w tDst tSrc).slotSigs tDst = w.slotSigs tSrc := by
    show (Slot_copyConnectionsFrom (Slot_disconnectAll w tDst) tDst tSrc).slotSigs tDst
      = w.slotSigs tSrc
    rw [Slot_copyConnectionsFrom, f2t,
      foldl_connect_slot_slotSigs_dst tDst _ _ hndt hguardt, f1t]
    rfl
  have gSrct : (Slot_copyAssign w tDst tSrc).slotSigs tSrc = w.slotSigs tSrc := by
    show (Slot_copyConnectionsFrom (Slot_disconnectAll w tDst) tDst tSrc).slotSigs tSrc
      = w.slotSigs tSrc
    rw [Slot_copyConnectionsFrom, f2t,
      foldl_connect_slot_slotSigs_other tDst _ _ tSrc ht]
    exact f2t
  have mAt : (Slot_moveAssign w tDst tSrc).sigSlots q = [] := by
    show (Slot_disconnectAll
      (Slot_copyConnectionsFrom (Slot_disconnectAll w tDst) tDst tSrc) tSrc).sigSlots q = []
    rw [Slot_disconnectAll_sigSlots]
    have e1 : (Slot_copyConnectionsFrom (Slot_disconnectAll w tDst) tDst tSrc).slotSigs tSrc
        = w.slotSigs tSrc := gSrct
    rw [e1, if_neg hqnot]
    exact gAt
  have mBt : (Slot_moveAssign w tDst tSrc).slotSigs tDst = w.slotSigs tSrc := by
    show (Slot_disconnectAll
      (Slot_copyConnectionsFrom (Slot_disconnectAll w tDst) tDst tSrc) tSrc).slotSigs tDst
      = w.slotSigs tSrc
    rw [Slot_disconnectAll_slotSigs, if_neg (Ne.symm ht)]
    exact gBt
  refine ⟨⟨?_, ?_, gB⟩, ⟨?_, ?_, mB⟩, ⟨?_, ?_, gBt⟩, ⟨?_, ?_, mBt⟩⟩
  · rw [Slot_connectionCount, gA]
    rfl
  · rw [Slot_isConnectedTo, gA]
    rfl
  · rw [Slot_connectionCount, mA]
    rfl
  · rw [Slot_isConnectedTo, mA]
    rfl
  · rw [Signal_connectionCount, gAt]
    rfl
  · rw [Signal_isConnectedTo, gAt]
    rfl
  · rw [Signal_connectionCount, mAt]
    rfl
  · rw [Signal_isConnectedTo, mAt]
    rfl

/-- Witness for C8 at the concrete world `wQuad`: signal 1 is copy/move
assigned onto signal 0 (prior counterpart slot 5), slot 11 onto slot 10
(prior counterpart signal 2). -/
theorem assign_severs_prior_witness :
    (Slot_connectionCount (Signal_copyAssign wQuad 0 1) 5 = 0 ∧
     Slot_isConnectedTo (Signal_copyAssign wQuad 0 1) 5 0 = false ∧
     (Signal_copyAssign wQuad 0 1).sigSlots 0 = wQuad.sigSlots 1) ∧
    (Slot_connectionCount (Signal_moveAssign wQuad 0 1) 5 = 0 ∧
     Slot_isConnectedTo (Signal_moveAssign wQuad 0 1) 5 0 = false ∧
     (Signal_moveAssign wQuad 0 1).sigSlots 0 = wQuad.sigSlots 1) ∧
    (Signal_connectionCount (Slot_copyAssign wQuad 10 11) 2 = 0 ∧
     Signal_isConnectedTo (Slot_copyAssign wQuad 10 11) 2 10 = false ∧
     (Slot_copyAssign wQuad 10 11).slotSigs 10 = wQuad.slotSigs 11) ∧
    (Signal_connectionCount (Slot_moveAssign wQuad 10 11) 2 = 0 ∧
     Signal_isConnectedTo (Slot_moveAssign wQuad 10 11) 2 10 = false ∧
     (Slot_moveAssign wQuad 10 11).slotSigs 10 = wQuad.slotSigs 11) :=
  assign_severs_prior wQuad 0 1 10 11 5 2 symm_wQuad
    (by decide) (by decide) (by decide) (by decide) (by decide) (by decide)

lemma swapCb_fst (f : Nat → κ) (i j : Nat) : swapCb f i j i = f j := by
  simp [swapCb]

/-- C9 counterexample: copying the `MemberSlot` `msOrig` (at address 0, bound
to the object at address 100) into a slot object at address 8 rebuilds the
callback with `calculateCallbackPointersFrom`, so emitting a signal connected
to the copy invokes member 7 on the object at address 108 — not on the exact
original instance at address 100.  Hence the binding is not preserved for
every placement of the new slot. -/
theorem member_copy_counterexample :
    Signal_emit wMember 0 (0 : Nat) = [(1, { inst := 108, fn := 7 }, 0)] ∧
    msOrig.inst = 100 ∧
    ¬ (∀ e ∈ Signal_emit wMember 0 (0 : Nat), e.2.1.inst = msOrig.inst) := by
  decide

/-- C9 (amended): a slot bound to instance `O` and member `M` makes emit on a
connected signal invoke `M` on exactly `O` with the forwarded argument, and a
plain `Slot` copy/move keeps the callback value (hence the exact binding)
unchanged; a `MemberSlot` copy or move, however, re-targets the bound
instance by the address offset between the new and the old slot object
(`newInst = oldInst + (newAddr - oldAddr)`), so the binding again denotes the
intended object exactly when that object is displaced by the same offset as
the slot (e.g. the slot is embedded in the object and copied with it), and
for a slot displaced by `d` relative to a fixed instance the copy targets the
instance shifted by `d`. -/
theorem member_binding_amended {α : Type} (w : World MemberBinding) (s t : Nat)
    (bInst : Int) (bFn : Nat) (a : α) (w2 : World MemberBinding) (dst src : Nat)
    (other : MemberSlotObj) (addr d : Int)
    (h1 : t ∈ w.sigSlots s) (h2 : w.cb t = { inst := bInst, fn := bFn }) :
    ((t, ({ inst := bInst, fn := bFn } : MemberBinding), a) ∈ Signal_emit w s a) ∧
    (Slot_copyCtor w2 dst src).cb dst = w2.cb src ∧
    (Slot_copyAssign w2 dst src).cb dst = w2.cb src ∧
    (Slot_moveCtor w2 dst src).cb dst = w2.cb src ∧
    (Slot_moveAssign w2 dst src).cb dst = w2.cb src ∧
    (MemberSlot_copyCtor addr other).fn = other.fn ∧
    (MemberSlot_copyCtor addr other).inst = other.inst + (addr - other.addr) ∧
    (MemberSlot_moveCtor addr other).inst = other.inst + (addr - other.addr) ∧
    (MemberSlot_copyCtor (other.addr + d) other).inst = other.inst + d := by
  refine ⟨?_, ?_, ?_, ?_, ?_, rfl, rfl, rfl, ?_⟩
  · exact List.mem_map.mpr ⟨t, h1, by rw [h2]⟩
  · show (updF (Slot_copyConnectionsFrom w2 dst src).cb dst
      ((Slot_copyConnectionsFrom w2 dst src).cb src)) dst = w2.cb src
    rw [updF_self, Slot_copyConnectionsFrom_cb]
  · show (updF (Slot_copyConnectionsFrom (Slot_disconnectAll w2 dst) dst src).cb dst
      ((Slot_copyConnectionsFrom (Slot_disconnectAll w2 dst) dst src).cb src)) dst
      = w2.cb src
    rw [updF_self, Slot_copyConnectionsFrom_cb, Slot_disconnectAll_cb]
  · show (swapCb (Slot_disconnectAll (Slot_copyConnectionsFrom w2 dst src) src).cb
      dst src) dst = w2.cb src
    rw [swapCb_fst, Slot_disconnectAll_cb, Slot_copyConnectionsFrom_cb]
  · show (swapCb (Slot_disconnectAll
      (Slot_copyConnectionsFrom (Slot_disconnectAll w2 dst) dst src) src).cb
      dst src) dst = w2.cb src
    rw [swapCb_fst, Slot_disconnectAll_cb, Slot_copyConnectionsFrom_cb,
      Slot_disconnectAll_cb]
  · show other.inst + (other.addr + d - other.addr) = other.inst + d
    omega

/-- Witness for the amended C9: the emit part at the concrete world `wMember`
(signal 0, slot 1, binding to instance 108, member 7), the callback parts at
`wMember` itself, and the `MemberSlot` re-targeting parts at `msOrig`. -/
theorem member_binding_amended_witness :
    ((1, ({ inst := 108, fn := 7 } : MemberBinding), (0 : Nat))
        ∈ Signal_emit wMember 0 (0 : Nat)) ∧
    (Slot_copyCtor wMember 2 1).cb 2 = wMember.cb 1 ∧
    (Slot_copyAssign wMember 2 1).cb 2 = wMember.cb 1 ∧
    (Slot_moveCtor wMember 2 1).cb 2 = wMember.cb 1 ∧
    (Slot_moveAssign wMember 2 1).cb 2 = wMember.cb 1 ∧
    (MemberSlot_copyCtor 8 msOrig).fn = msOrig.fn ∧
    (MemberSlot_copyCtor 8 msOrig).inst = msOrig.inst + (8 - msOrig.addr) ∧
    (MemberSlot_moveCtor 8 msOrig).inst = msOrig.inst + (8 - msOrig.addr) ∧
    (MemberSlot_copyCtor (msOrig.addr + 5) msOrig).inst = msOrig.inst + 5 :=
  member_binding_amended wMember 0 1 108 7 0 wMember 2 1 msOrig 8 5
    (by decide) (by decide)

/-- C10: self-assignment of a signal or slot with at least one connection
leaves it with zero connections: `disconnectAll` runs first, and the replay
connect then iterates the now-empty adjacency list of the object itself.
Stated for slot copy, slot move, signal copy and signal move assignment. -/
theorem self_assign_clears (w : World κ) (x y : Nat)
    (hx : 0 < Slot_connectionCount w x) (hy : 0 < Signal_connectionCount w y) :
    Slot_connectionCount (Slot_copyAssign w x x) x = 0 ∧
    Slot_connectionCount (Slot_moveAssign w x x) x = 0 ∧
    Signal_connectionCount (Signal_copyAssign w y y) y = 0 ∧
    Signal_connectionCount (Signal_moveAssign w y y) y = 0 := by
  have hD : (Slot_disconnectAll w x).slotSigs x = [] := by
    rw [Slot_disconnectAll_slotSigs, if_pos rfl]
  have hC : Slot_copyConnectionsFrom (Slot_disconnectAll w x) x x
      = Slot_disconnectAll w x := by
    rw [Slot_copyConnectionsFrom, hD]
    rfl
  have hDy : (Signal_disconnectAll w y).sigSlots y = [] := by
    rw [Signal_disconnectAll_sigSlots, if_pos rfl]
  have hCy : Signal_copyConnectionsFrom (Signal_disconnectAll w y) y y
      = Signal_disconnectAll w y := by
    rw [Signal_copyConnectionsFrom, hDy]
    rfl
  refine ⟨?_, ?_, ?_, ?_⟩
  · show ((Slot_copyConnectionsFrom (Slot_disconnectAll w x) x x).slotSigs x).length = 0
    rw [hC, hD]
    rfl
  · show ((Slot_disconnectAll
      (Slot_copyConnectionsFrom (Slot_disconnectAll w x) x x) x).slotSigs x).length = 0
    rw [Slot_disconnectAll_slotSigs, if_pos rfl]
    rfl
  · show ((Signal_copyConnectionsFrom (Signal_disconnectAll w y) y y).sigSlots y).length = 0
    rw [hCy, hDy]
    rfl
  · show ((Signal_disconnectAll
      (Signal_copyConnectionsFrom (Signal_disconnectAll w y) y y) y).sigSlots y).length = 0
    rw [Signal_disconnectAll_sigSlots, if_pos rfl]
    rfl

/-- Witness for C10 at the concrete world `wPair` (slot 0 and signal 0 each
have one connection). -/
theorem self_assign_clears_witness :
    Slot_connectionCount (Slot_copyAssign wPair 0 0) 0 = 0 ∧
    Slot_connectionCount (Slot_moveAssign wPair 0 0) 0 = 0 ∧
    Signal_connectionCount (Signal_copyAssign wPair 0 0) 0 = 0 ∧
    Signal_connectionCount (Signal_moveAssign wPair 0 0) 0 = 0 :=
  self_assign_clears wPair 0 0 (by decide) (by decide)
